import Mathlib

/-!
Verification of the pgrok reverse-tunnel broker and its management layer.

The development shallowly embeds:
* the database layer (`internal/database/tunnels.go`): the `Tunnel` record
  and its CRUD operations, with the `gorm:"unique"` constraints on `token`
  and `subdomain` modelled as part of the database semantics (postgres
  rejects a write that would violate them, and the write is rolled back);
* the management web handlers (`pgrokd/cli/web_server.go`): the ownership
  check performed by the subdomain PATCH endpoint;
* the client configuration profiles (`ApplyProfile`) and the forward-address
  derivation of `pgrok/cli/init.go`;
* the broker core of the spec (Registry, Session, Stream, framing), whose
  source is not part of this excerpt and is therefore modelled from the
  spec's component contracts.
-/

namespace Pgrok

/-! ## Database layer: internal/database/tunnels.go -/

/-- The `Tunnel` record of internal/database/tunnels.go.  The two timestamp
columns (`CreatedAt`, `UpdatedAt`) are bookkeeping written by the ORM and are
omitted; no operation modelled here reads them.  `token` and `subdomain`
carry a `gorm:"unique"` constraint enforced by postgres, `id` is the primary
key. -/
structure Tunnel where
  id : Int
  principalID : Int
  name : String
  token : String
  subdomain : String
  lastTCPPort : Int
  deriving Repr, DecidableEq

/-- The `tunnels` table, as a list of rows. -/
abbrev TunnelStore := List Tunnel

/-- Database-level errors surfaced by the tunnel operations. -/
inductive DBError where
  /-- `database.ErrSubdomainTaken`, produced by `UpdateTunnelSubdomain` when
  postgres reports a unique violation (code 23505) on `subdomain`. -/
  | errSubdomainTaken
  /-- A unique violation that the calling Go code does not translate. -/
  | uniqueViolation
  /-- `gorm.ErrRecordNotFound`, returned by `First` when no row matches. -/
  | recordNotFound
  deriving Repr, DecidableEq

/-- `GetTunnelByID`: `First` over `id = ?`. -/
def getTunnelByID (db : TunnelStore) (id : Int) : Except DBError Tunnel :=
  match db.find? (fun t => t.id == id) with
  | some t => .ok t
  | none => .error .recordNotFound

/-- `GetTunnelByToken`: `First` over `token = ?`. -/
def getTunnelByToken (db : TunnelStore) (token : String) : Except DBError Tunnel :=
  match db.find? (fun t => t.token == token) with
  | some t => .ok t
  | none => .error .recordNotFound

/-- `CreateTunnel`: inserts a row; postgres rejects the insert when it would
violate the primary key or one of the unique constraints, leaving the table
unchanged. -/
def createTunnel (db : TunnelStore) (t : Tunnel) : TunnelStore × Option DBError :=
  if db.any (fun u => u.id == t.id || u.token == t.token || u.subdomain == t.subdomain) then
    (db, some .uniqueViolation)
  else
    (db ++ [t], none)

/-- `UpdateTunnelLastTCPPort`: `UPDATE tunnels SET last_tcp_port = ? WHERE id = ?`. -/
def updateTunnelLastTCPPort (db : TunnelStore) (id : Int) (port : Int) : TunnelStore :=
  db.map fun t => if t.id = id then { t with lastTCPPort := port } else t

/-- `UpdateTunnelSubdomain`: `UPDATE tunnels SET subdomain = ? WHERE id = ?`.
The write violates the unique constraint on `subdomain` exactly when some row
is actually updated (a row with the given `id` exists) and a *different* row
already holds the new subdomain; postgres then reports 23505, the Go code
maps it to `ErrSubdomainTaken`, and the table is left unchanged. -/
def updateTunnelSubdomain (db : TunnelStore) (id : Int) (subdomain : String) :
    TunnelStore × Option DBError :=
  if db.any (fun t => t.id == id) &&
      db.any (fun t => t.id != id && t.subdomain == subdomain) then
    (db, some .errSubdomainTaken)
  else
    (db.map fun t => if t.id = id then { t with subdomain := subdomain } else t, none)

/-- `DeleteTunnelByID`: `DELETE FROM tunnels WHERE id = ? AND principal_id = ?`. -/
def deleteTunnelByID (db : TunnelStore) (id principalID : Int) : TunnelStore :=
  db.filter fun t => !(t.id == id && t.principalID == principalID)

/-- One mutation of the tunnels table, as offered by the database layer. -/
inductive StoreOp where
  | createOp (t : Tunnel)
  | updatePortOp (id : Int) (port : Int)
  | updateSubdomainOp (id : Int) (subdomain : String)
  | deleteOp (id : Int) (principalID : Int)
  deriving Repr, DecidableEq

/-- Apply one tunnels-table mutation (error discarded: a rejected write
leaves the table unchanged). -/
def applyStoreOp (db : TunnelStore) : StoreOp → TunnelStore
  | .createOp t => (createTunnel db t).1
  | .updatePortOp id port => updateTunnelLastTCPPort db id port
  | .updateSubdomainOp id subdomain => (updateTunnelSubdomain db id subdomain).1
  | .deleteOp id principalID => deleteTunnelByID db id principalID

/-! ## Broker core (spec §§2–4)

The broker's Registry/Session/Stream implementation is not part of the
source excerpt; the definitions below are modelled from the spec's component
contracts (§4.1 Registry, §4.2 Transport Listener, §4.3 multiplexing
protocol, §4.5 teardown). -/

/-- Modelled from the spec: a public name is "either a normalized subdomain
string or a TCP port number" (§3, Registry entry). -/
inductive RegName where
  | subdomain (s : String)
  | port (p : Nat)
  deriving Repr, DecidableEq

/-- Modelled from the spec: the Session lifecycle states of §3. -/
inductive SessionState where
  | connecting
  | authenticated
  | active
  | draining
  | closed
  deriving Repr, DecidableEq

/-- Modelled from the spec: the identity of a Session as held by the
Registry — a session id plus the token identity used as the reconnect
tie-breaker (§4.2). -/
structure Session where
  sid : Nat
  token : String
  deriving Repr, DecidableEq

/-- Modelled from the spec: the Registry, a directory of `name → Session`
entries (§3, §4.1). -/
structure Registry where
  entries : List (RegName × Session)
  deriving Repr, DecidableEq

/-- Result of `Registry.bind` (§4.1). -/
inductive BindResult where
  | ok
  | conflict
  deriving Repr, DecidableEq

/-- Result of `Registry.replace` / `Registry.remove` (§4.1). -/
inductive OpResult where
  | ok
  | notFound
  deriving Repr, DecidableEq

/-- Modelled from the spec: `lookup(name) -> Session | Absent` (§4.1). -/
def Registry.lookup (r : Registry) (n : RegName) : Option Session :=
  (r.entries.find? fun e => e.1 == n).map Prod.snd

/-- Modelled from the spec: `bind(name, session) -> ok | Conflict`; fails
when a session already holds the name (§4.1). -/
def Registry.bind (r : Registry) (n : RegName) (s : Session) : Registry × BindResult :=
  match r.lookup n with
  | some _ => (r, .conflict)
  | none => (⟨(n, s) :: r.entries⟩, .ok)

/-- Modelled from the spec: `replace(name, oldSessionID, newSession) -> ok |
NotFound`; a single indivisible swap of the holder, a no-op unless the
current holder has the expected session id (§4.1, §3). -/
def Registry.replace (r : Registry) (n : RegName) (oldSid : Nat) (s : Session) :
    Registry × OpResult :=
  match r.lookup n with
  | some cur =>
    if cur.sid = oldSid then
      (⟨r.entries.map fun e => if e.1 == n then (n, s) else e⟩, .ok)
    else (r, .notFound)
  | none => (r, .notFound)

/-- Modelled from the spec: `remove(name, sessionID) -> ok | NotFound`;
a no-op if the current holder differs, "preventing a stale removal from
evicting a newer session" (§4.1). -/
def Registry.remove (r : Registry) (n : RegName) (sid : Nat) : Registry × OpResult :=
  match r.lookup n with
  | some cur =>
    if cur.sid = sid then
      (⟨r.entries.filter fun e => !(e.1 == n)⟩, .ok)
    else (r, .notFound)
  | none => (r, .notFound)

/-- The number of sessions the Registry currently binds to a name. -/
def Registry.countBindings (r : Registry) (n : RegName) : Nat :=
  (r.entries.filter fun e => e.1 == n).length

/-- The Registry invariant: no name occurs in two entries. -/
def Registry.NamesUnique (r : Registry) : Prop :=
  (r.entries.map Prod.fst).Nodup

/-- One Registry mutation, as offered by the §4.1 contract. -/
inductive RegOp where
  | bindOp (n : RegName) (s : Session)
  | replaceOp (n : RegName) (oldSid : Nat) (s : Session)
  | removeOp (n : RegName) (sid : Nat)
  deriving Repr, DecidableEq

/-- Apply one Registry mutation (result code discarded). -/
def Registry.applyOp (r : Registry) : RegOp → Registry
  | .bindOp n s => (r.bind n s).1
  | .replaceOp n oldSid s => (r.replace n oldSid s).1
  | .removeOp n sid => (r.remove n sid).1

/-- The Registry reached from the empty directory by a sequence of
mutations. -/
def Registry.run (ops : List RegOp) : Registry :=
  ops.foldl Registry.applyOp ⟨[]⟩

/-- Modelled from the spec: a Stream multiplexed over a Session — stream id,
open/closed state, and the bytes delivered to it so far (§3). -/
structure Stream where
  streamId : Nat
  closed : Bool
  buffered : List Nat
  deriving Repr, DecidableEq

/-- Modelled from the spec: a Session object owned by the broker — its
state, its table of Streams, and its transport handle (§3). -/
structure SessionObj where
  sid : Nat
  token : String
  state : SessionState
  streams : List Stream
  deriving Repr, DecidableEq

/-- Modelled from the spec: teardown of a Session's streams on displacement —
mark `Draining` and close all its Streams, a forced abort (§4.2 step 4). -/
def SessionObj.drain (s : SessionObj) : SessionObj :=
  { s with state := .draining,
           streams := s.streams.map fun st => { st with closed := true } }

/-- Drain the session with the given id in a session table. -/
def drainSession (sessions : List SessionObj) (sid : Nat) : List SessionObj :=
  sessions.map fun s => if s.sid = sid then s.drain else s

/-- Modelled from the spec: broker state — the Registry plus the table of
Session objects it owns (§2). -/
structure Broker where
  registry : Registry
  sessions : List SessionObj
  deriving Repr, DecidableEq

/-- Outcome of a client handshake (§4.2). -/
inductive HandshakeResult where
  | accepted
  /-- `BindConflict`: another live client with a different token identity
  already owns this name (§4.2 step 4). -/
  | bindConflict
  deriving Repr, DecidableEq

/-- Modelled from the spec: §4.2 step 4 of the Transport Listener, after the
token has been resolved and the binding name derived.  If the name is free,
bind the new Session and mark it `Active`; if it is held by a Session with
the *same* token identity, this is a reconnect: atomically replace the stale
holder, drain it, and close all its Streams; otherwise reject with
`BindConflict` and leave the broker untouched. -/
def Broker.handleConnect (b : Broker) (n : RegName) (newS : Session) :
    Broker × HandshakeResult :=
  match b.registry.lookup n with
  | none =>
    ({ registry := (b.registry.bind n newS).1,
       sessions := b.sessions ++ [⟨newS.sid, newS.token, .active, []⟩] }, .accepted)
  | some holder =>
    if holder.token = newS.token then
      ({ registry := (b.registry.replace n holder.sid newS).1,
         sessions := drainSession b.sessions holder.sid ++
           [⟨newS.sid, newS.token, .active, []⟩] }, .accepted)
    else
      (b, .bindConflict)

/-- Modelled from the spec: the three stream-bearing frame kinds plus
Heartbeat of the multiplexing protocol (§4.3). -/
inductive Frame where
  | openStream (streamId : Nat) (targetHint : Nat)
  | data (streamId : Nat) (payload : List Nat)
  | close (streamId : Nat)
  | heartbeat
  deriving Repr, DecidableEq

/-- Modelled from the spec: the result of decoding one frame off the wire —
either a well-formed frame or a malformed (unparseable) header (§4.3). -/
inductive ParsedFrame where
  | malformed
  | ok (f : Frame)
  deriving Repr, DecidableEq

/-- Modelled from the spec: the per-Session state the frame loop operates
on — lifecycle state, Stream table, transport handle, plus counters for the
logged-and-dropped frames and observed heartbeats (§4.3, §4.5). -/
structure MuxSession where
  state : SessionState
  streams : List Stream
  transportOpen : Bool
  droppedFrames : Nat
  heartbeats : Nat
  deriving Repr, DecidableEq

/-- Does the session have an open (not closed) stream with this id? -/
def MuxSession.hasOpenStream (s : MuxSession) (id : Nat) : Bool :=
  s.streams.any fun st => st.streamId == id && !st.closed

/-- Modelled from the spec: full teardown of a Session (§4.5): mark the
session dead, close every open Stream, release the transport. -/
def MuxSession.teardown (s : MuxSession) : MuxSession :=
  { s with state := .closed,
           transportOpen := false,
           streams := s.streams.map fun st => { st with closed := true } }

/-- Modelled from the spec: processing of one decoded frame by a Session's
read loop (§4.3): a malformed frame is fatal and triggers §4.5 teardown; a
Data/Close frame for a closed or unknown stream id is dropped (and counted
as logged); otherwise the frame is applied to its stream. -/
def MuxSession.processFrame (s : MuxSession) : ParsedFrame → MuxSession
  | .malformed => s.teardown
  | .ok .heartbeat => { s with heartbeats := s.heartbeats + 1 }
  | .ok (.openStream id _hint) =>
    if s.streams.any (fun st => st.streamId == id) then
      { s with droppedFrames := s.droppedFrames + 1 }
    else
      { s with streams := s.streams ++ [⟨id, false, []⟩] }
  | .ok (.data id payload) =>
    if s.hasOpenStream id then
      { s with streams := s.streams.map fun st =>
          if st.streamId = id then { st with buffered := st.buffered ++ payload } else st }
    else
      { s with droppedFrames := s.droppedFrames + 1 }
  | .ok (.close id) =>
    if s.hasOpenStream id then
      { s with streams := s.streams.map fun st =>
          if st.streamId = id then { st with closed := true } else st }
    else
      { s with droppedFrames := s.droppedFrames + 1 }

/-- Process a sequence of decoded frames. -/
def MuxSession.processFrames (s : MuxSession) (fs : List ParsedFrame) : MuxSession :=
  fs.foldl MuxSession.processFrame s

/-- The bytes so far delivered to (observable on) the stream with the given
id in a stream table. -/
def streamBuffered (l : List Stream) (id : Nat) : List Nat :=
  match l.find? (fun st => st.streamId == id) with
  | some st => st.buffered
  | none => []

/-- The bytes observable on one of a Session's streams. -/
def MuxSession.observedOn (s : MuxSession) (id : Nat) : List Nat :=
  streamBuffered s.streams id

/-- The primary-key constraint: all rows have distinct `id`s. -/
def IDsUnique (db : TunnelStore) : Prop :=
  db.Pairwise fun a b => a.id ≠ b.id

/-- The unique constraint on `subdomain`: all rows have distinct subdomains. -/
def SubdomainsUnique (db : TunnelStore) : Prop :=
  db.Pairwise fun a b => a.subdomain ≠ b.subdomain

/-! ## Management web handler: pgrokd/cli/web_server.go -/

/-- The responses the `PATCH /api/tunnels/:id` handler can produce
(web_server.go lines 193–240). -/
inductive PatchResponse where
  /-- 400: non-positive id or undecodable body. -/
  | badRequest
  /-- 404: `GetTunnelByID` failed. -/
  | tunnelNotFound
  /-- 403 "Access denied": the tunnel belongs to another principal. -/
  | accessDenied
  /-- 409: `ErrSubdomainTaken`. -/
  | conflict
  /-- 500: any other database error. -/
  | serverError
  /-- 200 with the new subdomain. -/
  | okResp (subdomain : String)
  deriving Repr, DecidableEq

/-- The `PATCH /api/tunnels/:id` handler of web_server.go, from the point
where the request body has been decoded and the subdomain normalized
(`userutil.NormalizeIdentifier` is outside this excerpt, so the handler is
given the already-normalized subdomain): reject a non-positive id, look the
tunnel up, reject with "Access denied" when it belongs to a different
principal — before `UpdateTunnelSubdomain` is ever called — and otherwise
perform the update, mapping `ErrSubdomainTaken` to a 409. -/
def patchTunnelHandler (db : TunnelStore) (id pid : Int) (subdomain : String) :
    TunnelStore × PatchResponse :=
  if id ≤ 0 then (db, .badRequest)
  else
    match getTunnelByID db id with
    | .error _ => (db, .tunnelNotFound)
    | .ok t =>
      if t.principalID ≠ pid then (db, .accessDenied)
      else
        match updateTunnelSubdomain db id subdomain with
        | (db', some .errSubdomainTaken) => (db', .conflict)
        | (db', some _) => (db', .serverError)
        | (db', none) => (db', .okResp subdomain)

/-! ## Client configuration: pgrok config (Profile / ApplyProfile) -/

/-- The `Profile` of the client configuration file: the four overridable
fields. -/
structure Profile where
  remoteAddr : String
  forwardAddr : String
  token : String
  dynamicForwards : String
  deriving Repr, DecidableEq

/-- The `Config` of the client: the inline default profile fields plus the
named profiles (the Go map is modelled as an association list; `lookup`
finds the entry for a name). -/
structure Config where
  defaults : Profile
  profiles : List (String × Profile)
  deriving Repr, DecidableEq

/-- Look a named profile up in the configuration. -/
def Config.lookupProfile (c : Config) (n : String) : Option Profile :=
  (c.profiles.find? fun e => e.1 == n).map Prod.snd

/-- `Config.ApplyProfile`: with an empty name it does nothing; with an
unknown name it returns an error and mutates nothing; otherwise each of the
four top-level fields is overwritten by the profile's value exactly when
that value is non-empty.  The Go method mutates the receiver and returns an
error, modelled here as returning the new configuration together with the
optional error message. -/
def Config.applyProfile (c : Config) (name : String) : Config × Option String :=
  if name = "" then (c, none)
  else
    match c.lookupProfile name with
    | none => (c, some ("profile \"" ++ name ++ "\" not found"))
    | some p =>
      let d0 := c.defaults
      let d1 := if p.remoteAddr ≠ "" then { d0 with remoteAddr := p.remoteAddr } else d0
      let d2 := if p.forwardAddr ≠ "" then { d1 with forwardAddr := p.forwardAddr } else d1
      let d3 := if p.token ≠ "" then { d2 with token := p.token } else d2
      let d4 := if p.dynamicForwards ≠ "" then
          { d3 with dynamicForwards := p.dynamicForwards } else d3
      ({ c with defaults := d4 }, none)

/-! ## Forward-address derivation: pgrok/cli/init.go -/

/-- The digit value of a decimal digit character. -/
def digitVal (c : Char) : Nat := c.toNat - 48

/-- The number denoted by a list of decimal digit characters. -/
def digitsToNat (l : List Char) : Nat :=
  l.foldl (fun a c => 10 * a + digitVal c) 0

/-- Core of Go's `strconv.Atoi` on a 64-bit platform, over the character
list: an optional single `+`/`-` sign followed by at least one decimal
digit, rejected when the value overflows int64. -/
def atoiChars : List Char → Option Int
  | [] => none
  | c :: cs =>
    let signAndDigits : Bool × List Char :=
      if c = '+' then (false, cs)
      else if c = '-' then (true, cs)
      else (false, c :: cs)
    let neg := signAndDigits.1
    let ds := signAndDigits.2
    if ds.isEmpty then none
    else if ds.all Char.isDigit then
      let n : Int := if neg then -(digitsToNat ds : Int) else (digitsToNat ds : Int)
      if -(2 ^ 63) ≤ n ∧ n < 2 ^ 63 then some n else none
    else none

/-- Go's `strconv.Atoi`.  (Go indexes strings by byte; the derivation below
only ever slices off the first character, and for the inputs of interest —
ASCII — byte and character granularity agree.) -/
def atoi (s : String) : Option Int :=
  atoiChars s.data

/-- Does `pat` lead the list `l` (i.e. is it an initial segment of `l`)? -/
def leadsWith : List Char → List Char → Bool
  | [], _ => true
  | _ :: _, [] => false
  | p :: ps, c :: cs => p == c && leadsWith ps cs

/-- Does the list contain `sub` as a contiguous run? (`strings.Contains`.) -/
def hasSub (sub : List Char) : List Char → Bool
  | [] => sub.isEmpty
  | c :: cs => leadsWith sub (c :: cs) || hasSub sub cs

/-- The scheme separator `://` looked for by `deriveHTTPForwardAddress`. -/
def schemeSep : List Char := [':', '/', '/']

/-- `deriveHTTPForwardAddress` of pgrok/cli/init.go: empty input is returned
as is; a string `strconv.Atoi` accepts becomes `http://localhost:<n>`; a
string whose first character is dropped to an `Atoi`-accepted remainder
(e.g. `:3000`) likewise; a string without `://` gets an `http://` scheme;
anything else is returned unchanged. -/
def deriveHTTPForwardAddress (addr : String) : String :=
  if addr = "" then ""
  else
    match atoi addr with
    | some port => "http://localhost:" ++ toString port
    | none =>
      match atoi (String.mk addr.data.tail) with
      | some port => "http://localhost:" ++ toString port
      | none =>
        if !hasSub schemeSep addr.data then "http://" ++ addr
        else addr

/-! ## Theorems -/

/-- Claim C4: persisting an allocated TCP port is a pure allocation-field
update: for every tunnel id and port, `UpdateTunnelLastTCPPort` leaves every
identity field (id, owning principal, name, token, subdomain) of every
record unchanged, and sets `lastTCPPort` to the given port exactly on the
records with the given id. -/
theorem updateTunnelLastTCPPort_frame (db : TunnelStore) (id port : Int) :
    (updateTunnelLastTCPPort db id port).map
        (fun t => (t.id, t.principalID, t.name, t.token, t.subdomain)) =
      db.map (fun t => (t.id, t.principalID, t.name, t.token, t.subdomain)) ∧
    (updateTunnelLastTCPPort db id port).map Tunnel.lastTCPPort =
      db.map (fun t => if t.id = id then port else t.lastTCPPort) := by
  constructor <;>
  · simp only [updateTunnelLastTCPPort, List.map_map]
    apply List.map_congr_left
    intro t _
    by_cases h : t.id = id <;> simp [h]

/-- The components the spec's `ResolveToken(token)` is said to return (§6):
`{ownerID, subdomain, lastTCPPort, dynamicForwards}`. -/
def resolveTokenFields : List String :=
  ["ownerID", "subdomain", "lastTCPPort", "dynamicForwards"]

/-- The fields of the Go `Tunnel` record of internal/database/tunnels.go,
each paired with the spec-level component it realizes (`PrincipalID` is the
owner, `Subdomain` and `LastTCPPort` are the name allocation, the rest are
identity and bookkeeping). -/
def tunnelRecordFields : List (String × String) :=
  [("ID", "tunnelID"), ("PrincipalID", "ownerID"), ("Name", "name"),
   ("Token", "token"), ("Subdomain", "subdomain"), ("LastTCPPort", "lastTCPPort"),
   ("CreatedAt", "createdAt"), ("UpdatedAt", "updatedAt")]

/-- Claim C3, counterexample: the spec's `ResolveToken` result is said to
contain a `dynamicForwards` component, but no field of the `Tunnel` record
that `GetTunnelByToken` returns realizes it — dynamic forwards exist only in
the client-side configuration (`Profile.DynamicForwards`), not in the
metadata store's record. -/
theorem tunnel_record_has_no_dynamicForwards :
    "dynamicForwards" ∈ resolveTokenFields ∧
      "dynamicForwards" ∉ tunnelRecordFields.map Prod.snd := by
  decide

/-- Claim C3 (amended): resolving a token returns the `Tunnel` record —
carrying the owner (`PrincipalID`), `Subdomain` and `LastTCPPort`, but no
dynamic-forwards component — of a tunnel with that token when one exists,
and fails with record-not-found when no tunnel has that token. -/
theorem getTunnelByToken_spec (db : TunnelStore) (token : String) :
    (∀ t, getTunnelByToken db token = .ok t → t ∈ db ∧ t.token = token) ∧
    ((∃ t ∈ db, t.token = token) →
      ∃ t, getTunnelByToken db token = .ok t ∧ t.token = token) ∧
    ((∀ t ∈ db, t.token ≠ token) →
      getTunnelByToken db token = .error .recordNotFound) := by
  refine ⟨?_, ?_, ?_⟩
  · intro t h
    unfold getTunnelByToken at h
    cases hf : db.find? (fun u => u.token == token) with
    | none => rw [hf] at h; exact absurd h (by simp)
    | some u =>
      rw [hf] at h
      have hu : t = u := by simpa using h.symm
      subst hu
      exact ⟨List.mem_of_find?_eq_some hf, by simpa using List.find?_some hf⟩
  · rintro ⟨t, hmem, htok⟩
    have hsome : (db.find? fun u => u.token == token).isSome := by
      rw [List.find?_isSome]
      exact ⟨t, hmem, by simp [htok]⟩
    cases hf : db.find? (fun u => u.token == token) with
    | none => rw [hf] at hsome; simp at hsome
    | some u =>
      refine ⟨u, ?_, ?_⟩
      · unfold getTunnelByToken
        rw [hf]
      · simpa using List.find?_some hf
  · intro hall
    unfold getTunnelByToken
    have hf : db.find? (fun u => u.token == token) = none := by
      rw [List.find?_eq_none]
      intro t hmem
      simp [hall t hmem]
    rw [hf]

/-- Witness for C3's amended theorem: on a one-row store, resolving the
present token succeeds and resolving an absent token fails with
record-not-found. -/
theorem getTunnelByToken_spec_witness :
    (∃ t, getTunnelByToken [⟨1, 2, "default", "tok", "alice", 0⟩] "tok" = .ok t ∧
      t.token = "tok") ∧
    getTunnelByToken [⟨1, 2, "default", "tok", "alice", 0⟩] "zzz" =
      .error .recordNotFound :=
  ⟨(getTunnelByToken_spec [⟨1, 2, "default", "tok", "alice", 0⟩] "tok").2.1
      ⟨⟨1, 2, "default", "tok", "alice", 0⟩, by simp, rfl⟩,
    (getTunnelByToken_spec [⟨1, 2, "default", "tok", "alice", 0⟩] "zzz").2.2
      (by decide)⟩

/-- Claim C9: tunnel-mutating management requests respect ownership.
`DeleteTunnelByID` with a principal id that does not own the target deletes
nothing (the store is returned unchanged), and the subdomain PATCH handler
answers "Access denied" — leaving the store untouched, before
`UpdateTunnelSubdomain` is ever reached — when the tunnel resolved from the
id belongs to a different principal. -/
theorem ownership_enforced (db : TunnelStore) (id pid : Int) (sub : String)
    (t : Tunnel) :
    ((∀ u ∈ db, u.id = id → u.principalID ≠ pid) →
      deleteTunnelByID db id pid = db) ∧
    (0 < id → getTunnelByID db id = .ok t → t.principalID ≠ pid →
      patchTunnelHandler db id pid sub = (db, .accessDenied)) := by
  constructor
  · intro h
    unfold deleteTunnelByID
    rw [List.filter_eq_self]
    intro u hmem
    by_cases hid : u.id = id
    · have := h u hmem hid
      simp [hid, this]
    · simp [hid]
  · intro hpos hok hneq
    unfold patchTunnelHandler
    rw [if_neg (by omega), hok]
    simp [hneq]

/-- Witness for C9: on a store holding one tunnel owned by principal 2,
a delete by principal 9 leaves the store unchanged, and a PATCH by principal
9 is answered with "Access denied" and no store change. -/
theorem ownership_enforced_witness :
    deleteTunnelByID [⟨1, 2, "default", "tok", "alice", 0⟩] 1 9 =
      [⟨1, 2, "default", "tok", "alice", 0⟩] ∧
    patchTunnelHandler [⟨1, 2, "default", "tok", "alice", 0⟩] 1 9 "bob" =
      ([⟨1, 2, "default", "tok", "alice", 0⟩], .accessDenied) :=
  ⟨(ownership_enforced [⟨1, 2, "default", "tok", "alice", 0⟩] 1 9 "bob"
      ⟨1, 2, "default", "tok", "alice", 0⟩).1 (by decide),
    (ownership_enforced [⟨1, 2, "default", "tok", "alice", 0⟩] 1 9 "bob"
      ⟨1, 2, "default", "tok", "alice", 0⟩).2 (by decide) rfl (by decide)⟩

/-- `UpdateTunnelSubdomain` preserves the unique constraint on `subdomain`:
either the write is rejected (store unchanged) or the updated row's new
subdomain collides with no other row. -/
theorem subdomainsUnique_updateSubdomain (db : TunnelStore) (id : Int)
    (sub : String) (hid : IDsUnique db) (hsub : SubdomainsUnique db) :
    SubdomainsUnique (updateTunnelSubdomain db id sub).1 := by
  unfold updateTunnelSubdomain
  split
  · exact hsub
  · next hguard =>
    rw [Bool.and_eq_true, not_and_or] at hguard
    unfold SubdomainsUnique
    rw [List.pairwise_map]
    rcases hguard with hA | hB
    · -- no row has the target id: the map is the identity on every row
      rw [List.any_eq_true] at hA
      push_neg at hA
      refine (hid.and hsub).imp_of_mem ?_
      intro a b ha hb hr
      have hae : ¬a.id = id := by
        intro h
        exact absurd (by simp [h]) (hA a ha)
      have hbe : ¬b.id = id := by
        intro h
        exact absurd (by simp [h]) (hA b hb)
      simpa [hae, hbe] using hr.2
    · -- no *other* row holds the new subdomain
      rw [List.any_eq_true] at hB
      push_neg at hB
      refine (hid.and hsub).imp_of_mem ?_
      intro a b ha hb hr
      by_cases hae : a.id = id
      · have hbe : ¬b.id = id := fun h => hr.1 (hae.trans h.symm)
        have : ¬b.subdomain = sub := by
          intro h
          exact absurd (by simp [bne_iff_ne, hbe, h]) (hB b hb)
        simpa [hae, hbe] using fun h => this h.symm
      · by_cases hbe : b.id = id
        · have : ¬a.subdomain = sub := by
            intro h
            exact absurd (by simp [bne_iff_ne, hae, h]) (hB a ha)
          simpa [hae, hbe] using this
        · simpa [hae, hbe] using hr.2

/-- Inserting a tunnel preserves subdomain uniqueness: either the insert is
rejected by a unique violation (store unchanged) or the new row's subdomain
collides with no existing row. -/
theorem subdomainsUnique_create (db : TunnelStore) (t : Tunnel)
    (hsub : SubdomainsUnique db) : SubdomainsUnique (createTunnel db t).1 := by
  unfold createTunnel
  split
  · exact hsub
  · next hguard =>
    unfold SubdomainsUnique
    rw [List.pairwise_append]
    rw [List.any_eq_true] at hguard
    push_neg at hguard
    refine ⟨hsub, List.pairwise_singleton _ _, ?_⟩
    intro a ha b hb
    have hb1 : b = t := by simpa using hb
    subst hb1
    intro he
    exact absurd (by simp [he]) (hguard a ha)

theorem subdomainsUnique_updatePort (db : TunnelStore) (id port : Int)
    (hsub : SubdomainsUnique db) :
    SubdomainsUnique (updateTunnelLastTCPPort db id port) := by
  unfold updateTunnelLastTCPPort SubdomainsUnique
  rw [List.pairwise_map]
  refine hsub.imp_of_mem ?_
  intro a b _ _ hr
  by_cases hae : a.id = id <;> by_cases hbe : b.id = id <;> simpa [hae, hbe] using hr

theorem subdomainsUnique_delete (db : TunnelStore) (id pid : Int)
    (hsub : SubdomainsUnique db) :
    SubdomainsUnique (deleteTunnelByID db id pid) :=
  List.Pairwise.sublist (List.filter_sublist _) hsub

/-- Claim C2: a second, distinct tunnel claiming a held subdomain is
rejected.  (i) `UpdateTunnelSubdomain` returns `ErrSubdomainTaken` and
leaves the store unchanged (the first holder's record intact) whenever a
different tunnel already holds the subdomain; (ii) every tunnels-table
mutation preserves subdomain uniqueness, so the store never contains two
tunnels with the same subdomain; (iii) at the broker, a second handshake
with a different token identity for a held name is rejected with
`BindConflict` and the broker state — the first holder's binding included —
is unchanged. -/
theorem subdomain_conflict_rejected (db : TunnelStore) (t1 t2 : Tunnel)
    (b : Broker) (n : RegName) (holder s2 : Session) :
    (t1 ∈ db → t2 ∈ db → t1.id ≠ t2.id →
      updateTunnelSubdomain db t2.id t1.subdomain =
        (db, some .errSubdomainTaken)) ∧
    (∀ op : StoreOp, IDsUnique db → SubdomainsUnique db →
      SubdomainsUnique (applyStoreOp db op)) ∧
    (b.registry.lookup n = some holder → holder.token ≠ s2.token →
      b.handleConnect n s2 = (b, .bindConflict)) := by
  refine ⟨?_, ?_, ?_⟩
  · intro h1 h2 hne
    unfold updateTunnelSubdomain
    rw [if_pos]
    rw [Bool.and_eq_true]
    constructor
    · rw [List.any_eq_true]
      exact ⟨t2, h2, by simp⟩
    · rw [List.any_eq_true]
      refine ⟨t1, h1, ?_⟩
      simp [bne_iff_ne, hne]
  · intro op hid hsub
    cases op with
    | createOp t => exact subdomainsUnique_create db t hsub
    | updatePortOp id port => exact subdomainsUnique_updatePort db id port hsub
    | updateSubdomainOp id sub =>
      exact subdomainsUnique_updateSubdomain db id sub hid hsub
    | deleteOp id pid => exact subdomainsUnique_delete db id pid hsub
  · intro hlk hne
    unfold Broker.handleConnect
    rw [hlk]
    simp [hne]

/-- Witness for C2: on a two-row store, retargeting tunnel 2 onto tunnel 1's
subdomain fails with `ErrSubdomainTaken` and changes nothing; a handshake
with a foreign token for a bound name is rejected with `BindConflict`. -/
theorem subdomain_conflict_rejected_witness :
    updateTunnelSubdomain
        [⟨1, 1, "a", "ta", "alice", 0⟩, ⟨2, 2, "b", "tb", "bob", 0⟩] 2 "alice" =
      ([⟨1, 1, "a", "ta", "alice", 0⟩, ⟨2, 2, "b", "tb", "bob", 0⟩],
        some .errSubdomainTaken) ∧
    Broker.handleConnect ⟨⟨[(.subdomain "alice", ⟨1, "ta"⟩)]⟩, []⟩
        (.subdomain "alice") ⟨2, "tx"⟩ =
      (⟨⟨[(.subdomain "alice", ⟨1, "ta"⟩)]⟩, []⟩, .bindConflict) :=
  ⟨(subdomain_conflict_rejected
        [⟨1, 1, "a", "ta", "alice", 0⟩, ⟨2, 2, "b", "tb", "bob", 0⟩]
        ⟨1, 1, "a", "ta", "alice", 0⟩ ⟨2, 2, "b", "tb", "bob", 0⟩
        ⟨⟨[]⟩, []⟩ (.subdomain "x") ⟨0, ""⟩ ⟨0, ""⟩).1
      (by decide) (by decide) (by decide),
    (subdomain_conflict_rejected [] ⟨1, 1, "a", "ta", "alice", 0⟩
        ⟨2, 2, "b", "tb", "bob", 0⟩
        ⟨⟨[(.subdomain "alice", ⟨1, "ta"⟩)]⟩, []⟩
        (.subdomain "alice") ⟨1, "ta"⟩ ⟨2, "tx"⟩).2.2
      (by decide) (by decide)⟩

/-- Claim C8: `ApplyProfile` errors exactly when the name is non-empty and
unknown; with an empty or unknown name the configuration is left completely
unchanged; with a known profile, each of the four top-level fields is
overwritten by the profile's value exactly when that value is non-empty,
and the profile table itself is untouched. -/
theorem applyProfile_spec (c : Config) (n : String) (p : Profile) :
    ((c.applyProfile n).2 ≠ none ↔ (n ≠ "" ∧ c.lookupProfile n = none)) ∧
    (n = "" → c.applyProfile n = (c, none)) ∧
    (c.lookupProfile n = none → (c.applyProfile n).1 = c) ∧
    (n ≠ "" → c.lookupProfile n = some p →
      (c.applyProfile n).2 = none ∧
      (c.applyProfile n).1.profiles = c.profiles ∧
      (c.applyProfile n).1.defaults.remoteAddr =
        (if p.remoteAddr = "" then c.defaults.remoteAddr else p.remoteAddr) ∧
      (c.applyProfile n).1.defaults.forwardAddr =
        (if p.forwardAddr = "" then c.defaults.forwardAddr else p.forwardAddr) ∧
      (c.applyProfile n).1.defaults.token =
        (if p.token = "" then c.defaults.token else p.token) ∧
      (c.applyProfile n).1.defaults.dynamicForwards =
        (if p.dynamicForwards = "" then c.defaults.dynamicForwards
         else p.dynamicForwards)) := by
  by_cases hn : n = ""
  · subst hn
    simp [Config.applyProfile]
  · cases hl : c.lookupProfile n with
    | none =>
      refine ⟨?_, fun h => absurd h hn, ?_, ?_⟩
      · simp [Config.applyProfile, hn, hl]
      · intro _
        simp [Config.applyProfile, hn, hl]
      · intro _ hsome
        exact absurd hsome (by simp)
    | some q =>
      refine ⟨?_, fun h => absurd h hn, ?_, ?_⟩
      · simp [Config.applyProfile, hn, hl]
      · intro h
        exact absurd h (by simp)
      · intro _ hsome
        have hq : q = p := by simpa using hsome
        subst hq
        simp only [Config.applyProfile, if_neg hn, hl]
        by_cases h1 : q.remoteAddr = "" <;> by_cases h2 : q.forwardAddr = "" <;>
          by_cases h3 : q.token = "" <;> by_cases h4 : q.dynamicForwards = "" <;>
          simp [h1, h2, h3, h4]

/-- Witness for C8: a profile overriding two of the four fields changes
exactly those two; an unknown profile name yields an error and no change. -/
theorem applyProfile_spec_witness :
    (Config.applyProfile ⟨⟨"r", "f", "t", "d"⟩, [("work", ⟨"", "f2", "", "d2"⟩)]⟩
        "work").1.defaults.forwardAddr = "f2" ∧
    (Config.applyProfile ⟨⟨"r", "f", "t", "d"⟩, [("work", ⟨"", "f2", "", "d2"⟩)]⟩
        "work").1.defaults.remoteAddr = "r" ∧
    (Config.applyProfile ⟨⟨"r", "f", "t", "d"⟩, []⟩ "nope").1 =
      ⟨⟨"r", "f", "t", "d"⟩, []⟩ :=
  ⟨by
    rw [(applyProfile_spec ⟨⟨"r", "f", "t", "d"⟩, [("work", ⟨"", "f2", "", "d2"⟩)]⟩
        "work" ⟨"", "f2", "", "d2"⟩).2.2.2 (by decide) (by decide) |>.2.2.2.1]
    decide,
   by
    rw [(applyProfile_spec ⟨⟨"r", "f", "t", "d"⟩, [("work", ⟨"", "f2", "", "d2"⟩)]⟩
        "work" ⟨"", "f2", "", "d2"⟩).2.2.2 (by decide) (by decide) |>.2.2.1]
    decide,
   (applyProfile_spec ⟨⟨"r", "f", "t", "d"⟩, []⟩ "nope" ⟨"", "", "", ""⟩).2.2.1
     (by decide)⟩

theorem countBindings_eq_count (r : Registry) (n : RegName) :
    r.countBindings n = (r.entries.map Prod.fst).count n := by
  rw [Registry.countBindings, ← List.countP_eq_length_filter, List.count_eq_countP,
    List.countP_map]
  rfl

theorem countBindings_le_one {r : Registry} (h : r.NamesUnique) (n : RegName) :
    r.countBindings n ≤ 1 := by
  rw [countBindings_eq_count]
  exact List.nodup_iff_count_le_one.mp h n

theorem namesUnique_bind {r : Registry} (h : r.NamesUnique) (n : RegName) (s : Session) :
    ((r.bind n s).1).NamesUnique := by
  unfold Registry.bind
  cases hlk : r.lookup n with
  | some _ => exact h
  | none =>
    unfold Registry.NamesUnique at h ⊢
    simp only [List.map_cons, List.nodup_cons]
    refine ⟨?_, h⟩
    intro hmem
    rw [List.mem_map] at hmem
    obtain ⟨e, he, hfst⟩ := hmem
    have hnone : r.entries.find? (fun e => e.1 == n) = none := by
      simpa [Registry.lookup] using hlk
    have := List.find?_eq_none.mp hnone e he
    simp [hfst] at this

/-- Replacing the holder of a name rewrites entries in place without
touching any entry's name, so the name column is unchanged. -/
theorem names_map_replace (entries : List (RegName × Session)) (n : RegName)
    (s : Session) :
    (entries.map fun e => if e.1 == n then (n, s) else e).map Prod.fst =
      entries.map Prod.fst := by
  rw [List.map_map]
  apply List.map_congr_left
  intro e _
  by_cases he : e.1 = n
  · simp [he]
  · simp [he]

theorem namesUnique_replace {r : Registry} (h : r.NamesUnique) (n : RegName)
    (oldSid : Nat) (s : Session) : ((r.replace n oldSid s).1).NamesUnique := by
  unfold Registry.replace
  cases hlk : r.lookup n with
  | none => exact h
  | some cur =>
    by_cases hsid : cur.sid = oldSid
    · simp only [if_pos hsid]
      unfold Registry.NamesUnique at h ⊢
      rw [names_map_replace]
      exact h
    · simp only [if_neg hsid]
      exact h

theorem namesUnique_remove {r : Registry} (h : r.NamesUnique) (n : RegName)
    (sid : Nat) : ((r.remove n sid).1).NamesUnique := by
  unfold Registry.remove
  cases hlk : r.lookup n with
  | none => exact h
  | some cur =>
    by_cases hsid : cur.sid = sid
    · simp only [if_pos hsid]
      exact List.Nodup.sublist (List.Sublist.map _ (List.filter_sublist _)) h
    · simp only [if_neg hsid]
      exact h

theorem namesUnique_applyOp {r : Registry} (h : r.NamesUnique) (op : RegOp) :
    (r.applyOp op).NamesUnique := by
  cases op with
  | bindOp n s => exact namesUnique_bind h n s
  | replaceOp n oldSid s => exact namesUnique_replace h n oldSid s
  | removeOp n sid => exact namesUnique_remove h n sid

theorem namesUnique_run (ops : List RegOp) : (Registry.run ops).NamesUnique := by
  suffices h : ∀ r : Registry, r.NamesUnique →
      (ops.foldl Registry.applyOp r).NamesUnique by
    exact h ⟨[]⟩ (by simp [Registry.NamesUnique])
  induction ops with
  | nil => exact fun r hr => hr
  | cons op rest ih => exact fun r hr => ih _ (namesUnique_applyOp hr op)

/-- Claim C1: Registry uniqueness.  Every Registry reachable from the empty
directory by any sequence of `bind`/`replace`/`remove` operations binds at
most one Session to any public name (subdomain or TCP port) — each mutation
is a single indivisible step, so this holds at every instant. -/
theorem registry_at_most_one_session_per_name (ops : List RegOp) (n : RegName) :
    (Registry.run ops).countBindings n ≤ 1 :=
  countBindings_le_one (namesUnique_run ops) n

theorem find?_map_replace (entries : List (RegName × Session)) (n : RegName)
    (s : Session) (h : (entries.find? fun e => e.1 == n).isSome) :
    ((entries.map fun e => if e.1 == n then (n, s) else e).find?
        fun e => e.1 == n) = some (n, s) := by
  induction entries with
  | nil => simp at h
  | cons a as ih =>
    by_cases ha : a.1 = n
    · rw [List.map_cons, if_pos (by simp [ha])]
      exact List.find?_cons_of_pos _ (by simp)
    · rw [List.map_cons, if_neg (by simp [ha]),
        List.find?_cons_of_neg _ (by simp [ha])]
      apply ih
      rw [List.find?_cons_of_neg _ (by simp [ha])] at h
      exact h

theorem countBindings_replace_map (r : Registry) (n m : RegName) (s : Session) :
    (⟨r.entries.map fun e => if e.1 == n then (n, s) else e⟩ :
        Registry).countBindings m = r.countBindings m := by
  rw [countBindings_eq_count, countBindings_eq_count]
  simp only [names_map_replace]

theorem countBindings_pos {r : Registry} {n : RegName} {s : Session}
    (h : r.lookup n = some s) : 1 ≤ r.countBindings n := by
  unfold Registry.lookup at h
  cases hf : r.entries.find? (fun e => e.1 == n) with
  | none => rw [hf] at h; simp at h
  | some e =>
    have hmem : e ∈ r.entries := List.mem_of_find?_eq_some hf
    have hpred := List.find?_some hf
    have hmf : e ∈ r.entries.filter (fun e => e.1 == n) :=
      List.mem_filter.mpr ⟨hmem, hpred⟩
    have := List.length_pos.mpr (List.ne_nil_of_mem hmf)
    unfold Registry.countBindings
    omega

/-- Claim C5: reconnect atomicity. When a name is held by a live Session
and a second handshake presents the same token identity, the handshake is
accepted and the new Session displaces the old one in a single indivisible
step: the name is bound to exactly one Session both before and after (never
unbound, never bound to two), afterwards to the new Session; the displaced
Session object is marked `Draining` and every one of its Streams is closed
(forced abort). -/
theorem reconnect_displaces (b : Broker) (n : RegName) (old newS : Session)
    (hlk : b.registry.lookup n = some old)
    (htok : old.token = newS.token)
    (hnu : b.registry.NamesUnique)
    (hsid : old.sid ≠ newS.sid) :
    (b.handleConnect n newS).2 = .accepted ∧
    (b.handleConnect n newS).1.registry.lookup n = some newS ∧
    b.registry.countBindings n = 1 ∧
    (b.handleConnect n newS).1.registry.countBindings n = 1 ∧
    (∀ so ∈ b.sessions, so.sid = old.sid →
      so.drain ∈ (b.handleConnect n newS).1.sessions) ∧
    (∀ so ∈ (b.handleConnect n newS).1.sessions, so.sid = old.sid →
      so.state = .draining ∧ ∀ st ∈ so.streams, st.closed = true) := by
  have hone : b.registry.countBindings n = 1 :=
    Nat.le_antisymm (countBindings_le_one hnu n) (countBindings_pos hlk)
  have hres : b.handleConnect n newS =
      ({ registry :=
           ⟨b.registry.entries.map fun e => if e.1 == n then (n, newS) else e⟩,
         sessions := drainSession b.sessions old.sid ++
           [⟨newS.sid, newS.token, .active, []⟩] }, .accepted) := by
    unfold Broker.handleConnect Registry.replace
    rw [hlk]
    simp [htok]
  rw [hres]
  refine ⟨rfl, ?_, hone, ?_, ?_, ?_⟩
  · have hsome : (b.registry.entries.find? fun e => e.1 == n).isSome := by
      unfold Registry.lookup at hlk
      cases hf : b.registry.entries.find? (fun e => e.1 == n) with
      | none => rw [hf] at hlk; simp at hlk
      | some e => simp
    unfold Registry.lookup
    rw [find?_map_replace _ _ _ hsome]
    rfl
  · rw [countBindings_replace_map]
    exact hone
  · intro so hso hsid'
    apply List.mem_append_left
    unfold drainSession
    exact List.mem_map.mpr ⟨so, hso, by rw [if_pos hsid']⟩
  · intro so hso hsid'
    rcases List.mem_append.mp hso with hin | hin
    · obtain ⟨s0, hs0, heq⟩ := List.mem_map.mp hin
      by_cases h0 : s0.sid = old.sid
      · rw [if_pos h0] at heq
        subst heq
        refine ⟨rfl, ?_⟩
        intro st hst
        obtain ⟨st0, _, hst0⟩ := List.mem_map.mp hst
        rw [← hst0]
      · rw [if_neg h0] at heq
        subst heq
        exact absurd hsid' h0
    · have : so = ⟨newS.sid, newS.token, .active, []⟩ := by simpa using hin
      rw [this] at hsid'
      exact absurd hsid'.symm hsid

/-- Witness for C5: a concrete reconnect — name `alice` held by session 1
with one open stream, a new handshake with session id 2 and the same
token — is accepted, rebinds `alice` to session 2, and drains session 1. -/
theorem reconnect_displaces_witness :
    (Broker.handleConnect
        ⟨⟨[(.subdomain "alice", ⟨1, "tok"⟩)]⟩,
          [⟨1, "tok", .active, [⟨7, false, [1, 2]⟩]⟩]⟩
        (.subdomain "alice") ⟨2, "tok"⟩).2 = .accepted ∧
    (Broker.handleConnect
        ⟨⟨[(.subdomain "alice", ⟨1, "tok"⟩)]⟩,
          [⟨1, "tok", .active, [⟨7, false, [1, 2]⟩]⟩]⟩
        (.subdomain "alice") ⟨2, "tok"⟩).1.registry.lookup
      (.subdomain "alice") = some ⟨2, "tok"⟩ := by
  have h := reconnect_displaces
    ⟨⟨[(.subdomain "alice", ⟨1, "tok"⟩)]⟩,
      [⟨1, "tok", .active, [⟨7, false, [1, 2]⟩]⟩]⟩
    (.subdomain "alice") ⟨1, "tok"⟩ ⟨2, "tok"⟩
    (by decide) rfl (by unfold Registry.NamesUnique; decide) (by decide)
  exact ⟨h.1, h.2.1⟩

/-- Claim C6: for an Active Session, a Data or Close frame carrying a
closed or unknown stream id is dropped (the drop is counted as logged) and
the Session continues — its state stays `Active`, its transport stays as it
was, its streams are untouched — whereas a malformed frame is fatal: the
transport is closed and §4.5 teardown follows (session `Closed`, every
stream closed). -/
theorem frame_handling (s : MuxSession) (id : Nat) (payload : List Nat)
    (hactive : s.state = .active) (hno : s.hasOpenStream id = false) :
    (s.processFrame (.ok (.data id payload))).state = .active ∧
    (s.processFrame (.ok (.data id payload))).transportOpen = s.transportOpen ∧
    (s.processFrame (.ok (.data id payload))).streams = s.streams ∧
    (s.processFrame (.ok (.data id payload))).droppedFrames =
      s.droppedFrames + 1 ∧
    (s.processFrame (.ok (.close id))).state = .active ∧
    (s.processFrame (.ok (.close id))).transportOpen = s.transportOpen ∧
    (s.processFrame (.ok (.close id))).streams = s.streams ∧
    (s.processFrame .malformed).state = .closed ∧
    (s.processFrame .malformed).transportOpen = false ∧
    ∀ st ∈ (s.processFrame .malformed).streams, st.closed = true := by
  refine ⟨?_, ?_, ?_, ?_, ?_, ?_, ?_, ?_, ?_, ?_⟩ <;>
    simp [MuxSession.processFrame, MuxSession.teardown, hno, hactive]

/-- Witness for C6: a concrete Active session with one open stream drops a
Data frame for the unknown stream id 9 and stays Active, while a malformed
frame tears it down. -/
theorem frame_handling_witness :
    (MuxSession.processFrame ⟨.active, [⟨7, false, []⟩], true, 0, 0⟩
        (.ok (.data 9 [1]))).state = .active ∧
    (MuxSession.processFrame ⟨.active, [⟨7, false, []⟩], true, 0, 0⟩
        .malformed).transportOpen = false := by
  have h := frame_handling ⟨.active, [⟨7, false, []⟩], true, 0, 0⟩ 9 [1]
    rfl (by decide)
  exact ⟨h.1, h.2.2.2.2.2.2.2.2.1⟩

theorem streamBuffered_map (l : List Stream) (B : Nat) (g : Stream → Stream)
    (hid : ∀ st, (g st).streamId = st.streamId)
    (hbuf : ∀ st, st.streamId = B → (g st).buffered = st.buffered) :
    streamBuffered (l.map g) B = streamBuffered l B := by
  induction l with
  | nil => rfl
  | cons a as ih =>
    unfold streamBuffered
    rw [List.map_cons]
    by_cases ha : a.streamId = B
    · rw [List.find?_cons_of_pos _ (by simp [hid, ha]),
        List.find?_cons_of_pos _ (by simp [ha])]
      exact hbuf a ha
    · rw [List.find?_cons_of_neg _ (by simp [hid, ha]),
        List.find?_cons_of_neg _ (by simp [ha])]
      exact ih

theorem streamBuffered_append_of_none (l : List Stream) (x : Stream) (B : Nat)
    (h : l.find? (fun st => st.streamId == B) = none) :
    streamBuffered (l ++ [x]) B =
      if x.streamId == B then x.buffered else [] := by
  unfold streamBuffered
  rw [List.find?_append, h, Option.none_or]
  by_cases hx : x.streamId = B
  · rw [List.find?_cons_of_pos _ (by simp [hx])]
    simp [hx]
  · rw [List.find?_cons_of_neg _ (by simp [hx])]
    simp [hx]

theorem streamBuffered_append_of_some (l : List Stream) (x st : Stream) (B : Nat)
    (h : l.find? (fun st => st.streamId == B) = some st) :
    streamBuffered (l ++ [x]) B = streamBuffered l B := by
  unfold streamBuffered
  rw [List.find?_append, h]
  rfl

/-- Processing any single frame that is not a Data frame addressed to
stream `B` leaves the bytes observable on `B` unchanged. -/
theorem observedOn_processFrame (s : MuxSession) (pf : ParsedFrame) (B : Nat)
    (h : ∀ p, pf ≠ .ok (.data B p)) :
    (s.processFrame pf).observedOn B = s.observedOn B := by
  cases pf with
  | malformed =>
    unfold MuxSession.processFrame MuxSession.teardown MuxSession.observedOn
    exact streamBuffered_map _ _ _ (fun st => rfl) (fun st _ => rfl)
  | ok f =>
    cases f with
    | heartbeat => rfl
    | openStream id hint =>
      unfold MuxSession.processFrame MuxSession.observedOn
      by_cases hex : s.streams.any (fun st => st.streamId == id)
      · simp [hex]
      · simp only [hex, Bool.false_eq_true, if_neg, ite_false]
        by_cases hid : id = B
        · subst hid
          have hf : s.streams.find? (fun st => st.streamId == id) = none := by
            rw [List.find?_eq_none]
            intro st hst
            intro hpred
            exact hex (List.any_eq_true.mpr ⟨st, hst, hpred⟩)
          rw [streamBuffered_append_of_none _ _ _ hf]
          unfold streamBuffered
          rw [hf]
          simp
        · cases hf : s.streams.find? (fun st => st.streamId == B) with
          | none =>
            rw [streamBuffered_append_of_none _ _ _ hf]
            unfold streamBuffered
            rw [hf]
            simp [hid]
          | some st => exact streamBuffered_append_of_some _ _ _ _ hf
    | data id p =>
      have hid : id ≠ B := by
        intro he
        exact h p (by rw [he])
      unfold MuxSession.processFrame MuxSession.observedOn
      by_cases hopen : s.hasOpenStream id
      · simp only [hopen, if_pos]
        apply streamBuffered_map
        · intro st
          by_cases hst : st.streamId = id <;> simp [hst]
        · intro st hst
          rw [if_neg (by rw [hst]; exact fun he => hid he.symm)]
      · simp [hopen]
    | close id =>
      unfold MuxSession.processFrame MuxSession.observedOn
      by_cases hopen : s.hasOpenStream id
      · simp only [hopen, if_pos]
        apply streamBuffered_map
        · intro st
          by_cases hst : st.streamId = id <;> simp [hst]
        · intro st _
          by_cases hst : st.streamId = id <;> simp [hst]
      · simp [hopen]

/-- Claim C7: no cross-talk.  For any Session state and any sequence of
frames containing no Data frame addressed to stream `B` — in particular any
bytes written into any other concurrently open Stream `A` — the bytes
observable on `B` are exactly what they were before: bytes written into one
Stream are never observed on another. -/
theorem no_cross_talk (s : MuxSession) (fs : List ParsedFrame) (B : Nat)
    (h : ∀ pf ∈ fs, ∀ p, pf ≠ .ok (.data B p)) :
    (s.processFrames fs).observedOn B = s.observedOn B := by
  induction fs generalizing s with
  | nil => rfl
  | cons pf rest ih =>
    unfold MuxSession.processFrames
    rw [List.foldl_cons]
    have h1 : (MuxSession.processFrame s pf).observedOn B = s.observedOn B :=
      observedOn_processFrame s pf B (h pf (by simp))
    have h2 := ih (s.processFrame pf) (fun q hq => h q (by simp [hq]))
    unfold MuxSession.processFrames at h2
    rw [h2, h1]

/-- Witness for C7: writing bytes into stream 1 (and closing it) leaves the
bytes observable on stream 2 exactly as they were. -/
theorem no_cross_talk_witness :
    (MuxSession.processFrames
        ⟨.active, [⟨1, false, []⟩, ⟨2, false, [9]⟩], true, 0, 0⟩
        [.ok (.data 1 [5, 6]), .ok (.close 1)]).observedOn 2 =
      (⟨.active, [⟨1, false, []⟩, ⟨2, false, [9]⟩], true, 0, 0⟩ :
        MuxSession).observedOn 2 :=
  no_cross_talk ⟨.active, [⟨1, false, []⟩, ⟨2, false, [9]⟩], true, 0, 0⟩
    [.ok (.data 1 [5, 6]), .ok (.close 1)] 2
    (by intro pf hpf p; fin_cases hpf <;> simp)

theorem mem_of_leadsWith {sub l : List Char} (h : leadsWith sub l = true)
    {c : Char} (hc : c ∈ sub) : c ∈ l := by
  induction sub generalizing l with
  | nil => simp at hc
  | cons p ps ih =>
    cases l with
    | nil => simp [leadsWith] at h
    | cons a as =>
      rw [leadsWith, Bool.and_eq_true] at h
      rcases List.mem_cons.mp hc with hc | hc
      · have hpa : p = a := by simpa using h.1
        rw [hc, hpa]
        exact List.mem_cons_self a as
      · exact List.mem_cons_of_mem a (ih h.2 hc)

theorem sub_mem_of_hasSub {sub l : List Char} (h : hasSub sub l = true)
    (hne : sub ≠ []) {c : Char} (hc : c ∈ sub) : c ∈ l := by
  induction l with
  | nil =>
    rw [hasSub] at h
    exact absurd (List.isEmpty_iff.mp h) hne
  | cons a as ih =>
    rw [hasSub, Bool.or_eq_true] at h
    rcases h with h | h
    · exact mem_of_leadsWith h hc
    · exact List.mem_cons_of_mem a (ih h)

theorem colon_mem_of_hasSub {l : List Char} (h : hasSub schemeSep l = true) :
    ':' ∈ l :=
  sub_mem_of_hasSub h (by simp [schemeSep]) (by simp [schemeSep])

theorem slash_mem_tail_of_hasSub {l : List Char}
    (h : hasSub schemeSep l = true) : '/' ∈ l.tail := by
  cases l with
  | nil => simp [hasSub, schemeSep] at h
  | cons a as =>
    rw [hasSub, Bool.or_eq_true] at h
    rcases h with h | h
    · cases as with
      | nil => simp [schemeSep, leadsWith] at h
      | cons b bs =>
        simp only [schemeSep, leadsWith, Bool.and_eq_true] at h
        have hb : '/' = b := by simpa using h.2.1
        simp only [List.tail_cons]
        rw [← hb]
        exact List.mem_cons_self _ _
    · simpa using sub_mem_of_hasSub h (by simp [schemeSep])
        (show '/' ∈ schemeSep by simp [schemeSep])

theorem atoiChars_eq_none_of_mem {l : List Char} {c : Char} (hm : c ∈ l)
    (hp : c ≠ '+') (hmn : c ≠ '-') (hd : c.isDigit = false) :
    atoiChars l = none := by
  have hnotall : ∀ ds : List Char, c ∈ ds → ds.all Char.isDigit = false := by
    intro ds hds
    cases hall : ds.all Char.isDigit with
    | false => rfl
    | true =>
      rw [List.all_eq_true] at hall
      rw [hall c hds] at hd
      exact absurd hd (by simp)
  cases l with
  | nil => rfl
  | cons c0 cs =>
    rcases List.mem_cons.mp hm with he | he
    · -- c is the leading character: it is not a sign, so it lands in `ds`
      subst he
      simp only [atoiChars, if_neg hp, if_neg hmn]
      rw [if_neg (by simp), hnotall _ (List.mem_cons_self _ _)]
      simp
    · -- c is behind the head: it lands in `ds` whichever sign branch is taken
      have hemp : ¬(cs.isEmpty = true) := by
        cases cs with
        | nil => simp at he
        | cons d dsx => simp
      by_cases h0 : c0 = '+'
      · simp only [atoiChars, if_pos h0]
        rw [if_neg hemp, hnotall _ he]
        simp
      · by_cases h1 : c0 = '-'
        · simp only [atoiChars, if_neg h0, if_pos h1]
          rw [if_neg hemp, hnotall _ he]
          simp
        · simp only [atoiChars, if_neg h0, if_neg h1]
          rw [if_neg (by simp), hnotall _ (List.mem_cons_of_mem c0 he)]
          simp

theorem atoiChars_digits {l : List Char} (hne : l ≠ [])
    (hall : l.all Char.isDigit = true)
    (hrange : (digitsToNat l : Int) < 2 ^ 63) :
    atoiChars l = some ((digitsToNat l : Int)) := by
  cases l with
  | nil => exact absurd rfl hne
  | cons c0 cs =>
    have hc0 : c0.isDigit = true := by
      rw [List.all_eq_true] at hall
      exact hall c0 (List.mem_cons_self _ _)
    have h0 : c0 ≠ '+' := by
      intro h
      rw [h] at hc0
      exact absurd hc0 (by decide)
    have h1 : c0 ≠ '-' := by
      intro h
      rw [h] at hc0
      exact absurd hc0 (by decide)
    simp only [atoiChars, if_neg h0, if_neg h1]
    rw [if_neg (by simp), if_pos hall]
    have hcond : (-(2 ^ 63) : Int) ≤ (digitsToNat (c0 :: cs) : Int) ∧
        (digitsToNat (c0 :: cs) : Int) < 2 ^ 63 :=
      ⟨le_trans (show (-(2 ^ 63) : Int) ≤ 0 by norm_num)
        (Int.natCast_nonneg _), hrange⟩
    rw [if_neg (show ¬(false = true) by decide), if_pos hcond]

theorem leadsWith_append {sub l1 l2 : List Char} (h : leadsWith sub l1 = true) :
    leadsWith sub (l1 ++ l2) = true := by
  induction sub generalizing l1 with
  | nil => rfl
  | cons p ps ih =>
    cases l1 with
    | nil => simp [leadsWith] at h
    | cons a as =>
      rw [leadsWith, Bool.and_eq_true] at h
      rw [List.cons_append, leadsWith, Bool.and_eq_true]
      exact ⟨h.1, ih h.2⟩

theorem hasSub_append_left {sub l1 l2 : List Char} (h : hasSub sub l1 = true) :
    hasSub sub (l1 ++ l2) = true := by
  induction l1 with
  | nil =>
    rw [hasSub] at h
    have hsub : sub = [] := List.isEmpty_iff.mp h
    subst hsub
    cases l2 with
    | nil => rfl
    | cons c cs =>
      rw [List.nil_append, hasSub, Bool.or_eq_true]
      exact Or.inl rfl
  | cons a as ih =>
    rw [List.cons_append]
    rw [hasSub, Bool.or_eq_true] at h
    rw [hasSub, Bool.or_eq_true]
    rcases h with h | h
    · exact Or.inl (leadsWith_append h)
    · exact Or.inr (ih h)

/-- Every result of the first three branches of the derivation carries an
`http://` scheme, hence contains `://`. -/
theorem hasSub_localhost (t : String) :
    hasSub schemeSep ("http://localhost:" ++ t).data = true := by
  rw [String.data_append]
  exact hasSub_append_left (by decide)

theorem hasSub_http (t : String) :
    hasSub schemeSep ("http://" ++ t).data = true := by
  rw [String.data_append]
  exact hasSub_append_left (by decide)

/-- A string already containing `://` is returned unchanged by the
derivation: neither it nor its tail parses as a number, and the scheme test
succeeds. -/
theorem derive_of_hasSub (s : String) (h : hasSub schemeSep s.data = true) :
    deriveHTTPForwardAddress s = s := by
  have hne : ¬(s = "") := by
    intro he
    rw [he] at h
    exact absurd h (by decide)
  have h1 : atoi s = none :=
    atoiChars_eq_none_of_mem (colon_mem_of_hasSub h)
      (by decide) (by decide) (by decide)
  have h2 : atoi (String.mk s.data.tail) = none :=
    atoiChars_eq_none_of_mem
      (show '/' ∈ (String.mk s.data.tail).data from slash_mem_tail_of_hasSub h)
      (by decide) (by decide) (by decide)
  unfold deriveHTTPForwardAddress
  rw [if_neg hne]
  simp only [h1, h2, h, Bool.not_true]
  simp

/-- A non-empty all-digit string is mapped to `http://localhost:` plus its
value, with or without a leading `:`. -/
theorem derive_digits (s : String) (hne : s.data ≠ [])
    (hall : s.data.all Char.isDigit = true)
    (hrange : digitsToNat s.data < 65536) :
    deriveHTTPForwardAddress s =
      "http://localhost:" ++ toString ((digitsToNat s.data : Int)) ∧
    deriveHTTPForwardAddress (":" ++ s) =
      "http://localhost:" ++ toString ((digitsToNat s.data : Int)) := by
  have hint : (digitsToNat s.data : Int) < 2 ^ 63 := by
    have : ((65536 : Nat) : Int) ≤ 2 ^ 63 := by norm_num
    exact lt_of_lt_of_le (by exact_mod_cast hrange) this
  have h1 : atoi s = some ((digitsToNat s.data : Int)) :=
    atoiChars_digits hne hall hint
  constructor
  · have hs : ¬(s = "") := by
      intro he
      rw [he] at hne
      exact hne rfl
    unfold deriveHTTPForwardAddress
    rw [if_neg hs]
    simp only [h1]
  · have hdata : (":" ++ s).data = ':' :: s.data := by
      rw [String.data_append]
      rfl
    have hs : ¬(":" ++ s = "") := by
      intro he
      have := congrArg String.data he
      rw [hdata] at this
      simp at this
    have hcolon : atoi (":" ++ s) = none := by
      show atoiChars (":" ++ s).data = none
      rw [hdata]
      exact atoiChars_eq_none_of_mem (List.mem_cons_self _ _)
        (by decide) (by decide) (by decide)
    have htail : atoi (String.mk (":" ++ s).data.tail) =
        some ((digitsToNat s.data : Int)) := by
      rw [hdata]
      exact h1
    unfold deriveHTTPForwardAddress
    rw [if_neg hs]
    simp only [hcolon, htail]

/-- Claim C10: `deriveHTTPForwardAddress` is idempotent — applying it to its
own output returns that output for every input string.  In particular a
bare decimal port number N, with or without a leading `:`, maps to
`http://localhost:N`; any input containing `://` is returned unchanged; and
the empty string maps to itself. -/
theorem deriveHTTPForwardAddress_spec :
    (∀ s : String, deriveHTTPForwardAddress (deriveHTTPForwardAddress s) =
      deriveHTTPForwardAddress s) ∧
    (∀ s : String, s.data ≠ [] → s.data.all Char.isDigit = true →
      digitsToNat s.data < 65536 →
      deriveHTTPForwardAddress s =
        "http://localhost:" ++ toString ((digitsToNat s.data : Int)) ∧
      deriveHTTPForwardAddress (":" ++ s) =
        "http://localhost:" ++ toString ((digitsToNat s.data : Int))) ∧
    (∀ s : String, hasSub schemeSep s.data = true →
      deriveHTTPForwardAddress s = s) ∧
    deriveHTTPForwardAddress "" = "" := by
  refine ⟨?_, derive_digits, derive_of_hasSub, rfl⟩
  intro s
  by_cases hs : s = ""
  · rw [hs]
    decide
  · cases h1 : atoi s with
    | some p =>
      have hd : deriveHTTPForwardAddress s = "http://localhost:" ++ toString p := by
        unfold deriveHTTPForwardAddress
        rw [if_neg hs]
        simp only [h1]
      rw [hd]
      exact derive_of_hasSub _ (hasSub_localhost _)
    | none =>
      cases h2 : atoi (String.mk s.data.tail) with
      | some p =>
        have hd : deriveHTTPForwardAddress s =
            "http://localhost:" ++ toString p := by
          unfold deriveHTTPForwardAddress
          rw [if_neg hs]
          simp only [h1, h2]
        rw [hd]
        exact derive_of_hasSub _ (hasSub_localhost _)
      | none =>
        cases h3 : hasSub schemeSep s.data with
        | true =>
          have hd : deriveHTTPForwardAddress s = s := derive_of_hasSub s h3
          rw [hd]
          exact hd
        | false =>
          have hd : deriveHTTPForwardAddress s = "http://" ++ s := by
            unfold deriveHTTPForwardAddress
            rw [if_neg hs]
            simp only [h1, h2, h3, Bool.not_false]
            simp
          rw [hd]
          exact derive_of_hasSub _ (hasSub_http _)

/-- Witness for C10: `8080` (bare and with a leading colon) derives to
`http://localhost:8080`, an address with a scheme is unchanged, and both
outcomes are fixed points. -/
theorem deriveHTTPForwardAddress_spec_witness :
    deriveHTTPForwardAddress "8080" =
      "http://localhost:" ++ toString ((8080 : Int)) ∧
    deriveHTTPForwardAddress (":" ++ "8080") =
      "http://localhost:" ++ toString ((8080 : Int)) ∧
    deriveHTTPForwardAddress "http://example.com" = "http://example.com" ∧
    deriveHTTPForwardAddress (deriveHTTPForwardAddress "localhost:3000") =
      deriveHTTPForwardAddress "localhost:3000" :=
  ⟨(deriveHTTPForwardAddress_spec.2.1 "8080" (by decide) (by decide)
      (by decide)).1,
    (deriveHTTPForwardAddress_spec.2.1 "8080" (by decide) (by decide)
      (by decide)).2,
    deriveHTTPForwardAddress_spec.2.2.1 "http://example.com" (by decide),
    deriveHTTPForwardAddress_spec.1 "localhost:3000"⟩

end Pgrok
